import Mathlib

/-!
Shallow embedding of the item scheduling engine of `forgetting_curve_cli.py`
(spaced-repetition CLI).  Dates are ISO strings compared lexicographically,
exactly as the Python code compares them; Python float arithmetic in the
interval calculator is modelled over the reals; Python dicts of items are
modelled as association lists in insertion order.
-/

namespace ForgettingCurve

/-- Constant `FORGETTING_SCHEDULE = [1, 2, 3, 7, 15, 30, 60, 90, 120]` (days). -/
def FORGETTING_SCHEDULE : List Nat := [1, 2, 3, 7, 15, 30, 60, 90, 120]

/-- Constant `REQUIRED_STREAK = 3`: consecutive correct answers required for promotion. -/
def REQUIRED_STREAK : Nat := 3

/-- Constant `DAILY_TOTAL_LIMIT = 30`: maximum number of total items (learning + review) per day. -/
def DAILY_TOTAL_LIMIT : Nat := 30

/-- One entry of an item's `review_log` list (see `update_review_items`). -/
structure ReviewLogEntry where
  date : String
  scheduled_interval : Int
  actual_interval : Int
  is_correct : Bool
  r : Nat
  response_time : ℚ
deriving DecidableEq

/-- A memory item, as stored in the JSON data file (dict built in `add_new_items`).
Date-valued fields hold ISO `YYYY-MM-DD` strings (or the `"done"` sentinel in
`next_review`); `history` holds the outcome symbols `'O'`/`'X'`; response times
(Python floats) are modelled as rationals. -/
structure Item where
  question : String
  answer : String
  correct_streak : Nat
  stage : Nat
  next_review : String
  status : String
  history : List Char
  postponed : Bool
  created_at : String
  response_times : List ℚ
  error_ratios : List ℚ
  last_processed_date : String
  review_log : List ReviewLogEntry
deriving DecidableEq

/-- Python string `<=` on lists of characters: lexicographic by code point. -/
def pyListLe : List Char → List Char → Bool
  | [], _ => true
  | _ :: _, [] => false
  | a :: as, b :: bs => if a < b then true else if b < a then false else pyListLe as bs

/-- Python string `<=`: lexicographic comparison by code point, used by the
source for every date comparison (`next_review <= DATE_TODAY` etc.). -/
def pyStrLe (a b : String) : Bool := pyListLe a.toList b.toList

/-! Calendar arithmetic.

`datetime.date.fromisoformat`, `date - date` and `date + timedelta(days=k)`
are modelled by converting ISO strings to a day count in the proleptic
Gregorian calendar (civil-from-days / days-from-civil) and back. -/

/-- Day number of a civil date (proleptic Gregorian), days since 1970-01-01. -/
def daysFromCivil (y m d : Int) : Int :=
  let y := if m ≤ 2 then y - 1 else y
  let era := (if 0 ≤ y then y else y - 399) / 400
  let yoe := y - era * 400
  let mp := (m + 9) % 12
  let doy := (153 * mp + 2) / 5 + d - 1
  let doe := yoe * 365 + yoe / 4 - yoe / 100 + doy
  era * 146097 + doe - 719468

/-- Inverse of `daysFromCivil`: (year, month, day) of a day number. -/
def civilFromDays (z : Int) : Int × Int × Int :=
  let z := z + 719468
  let era := (if 0 ≤ z then z else z - 146096) / 146097
  let doe := z - era * 146097
  let yoe := (doe - doe / 1460 + doe / 36524 - doe / 146096) / 365
  let y := yoe + era * 400
  let doy := doe - (365 * yoe + yoe / 4 - yoe / 100)
  let mp := (5 * doy + 2) / 153
  let d := doy - (153 * mp + 2) / 5 + 1
  let m := mp + (if mp < 10 then 3 else -9)
  (if m ≤ 2 then y + 1 else y, m, d)

/-- Numeric value of a decimal digit character. -/
def digitVal (c : Char) : Nat := c.toNat - '0'.toNat

/-- Decimal number denoted by a list of digit characters. -/
def parseNatChars (cs : List Char) : Nat := cs.foldl (fun acc c => acc * 10 + digitVal c) 0

/-- Python `datetime.date.fromisoformat` composed with conversion to a day number.
Malformed input (which would raise in Python and never occurs on engine data)
is mapped to day 0. -/
def isoToDays (s : String) : Int :=
  match s.toList.splitOn '-' with
  | [y, m, d] => daysFromCivil (parseNatChars y) (parseNatChars m) (parseNatChars d)
  | _ => 0

/-- Left-pad a digit string with `'0'` to the given width. -/
def padZeros (w : Nat) (cs : List Char) : List Char :=
  List.replicate (w - cs.length) '0' ++ cs

/-- Rendering `str` of a date: format a day number back to an ISO `YYYY-MM-DD` string. -/
def daysToIso (z : Int) : String :=
  let c := civilFromDays z
  String.mk (padZeros 4 (Nat.toDigits 10 c.1.toNat) ++ '-' ::
    padZeros 2 (Nat.toDigits 10 c.2.1.toNat) ++ '-' ::
    padZeros 2 (Nat.toDigits 10 c.2.2.toNat))

/-- Difference `date.fromisoformat(a) - date.fromisoformat(b)`, in days. -/
def isoDiffDays (a b : String) : Int := isoToDays a - isoToDays b

/-- Shift `str(date.fromisoformat(s) + timedelta(days=k))`. -/
def isoAddDays (s : String) (k : Int) : String := daysToIso (isoToDays s + k)

/-! Rating estimator (`estimate_r`). -/

/-- Length of the leading run of `'O'` in a list (helper for `estimate_r`'s
backwards scan over the history). -/
def leadingO : List Char → Nat
  | [] => 0
  | c :: rest => if c = 'O' then leadingO rest + 1 else 0

/-- Value `o_streak` in `estimate_r`: the trailing run of `'O'` at the end of the
existing history (the scan walks `reversed(history)`). -/
def oStreak (history : List Char) : Nat := leadingO history.reverse

/-- Function `estimate_r(item, is_correct, response_time)`: appends the response time to
`response_times` (a side effect on the item, modelled by returning the updated
item) and returns the rating `r ∈ {0,2,3,4,5}`. -/
def estimate_r (item : Item) (is_correct : Bool) (response_time : ℚ) : Item × Nat :=
  let st := oStreak item.history
  let item1 := { item with response_times := item.response_times ++ [response_time] }
  if !is_correct then (item1, 0)
  else if 3 ≤ st then (item1, 5)
  else if st = 2 then (item1, 4)
  else if st = 1 then (item1, 3)
  else (item1, 2)

/-! Interval calculator (`update_review_items`, correct branch, stage < N).

Python float arithmetic (`math.exp`, `*`, `/`) is modelled over `ℝ`;
`int(x)` on the nonnegative value is `⌊x⌋`. -/

/-- Factor `r_factor = max(0.3, math.exp(-0.3 * (5 - r)))`. -/
noncomputable def r_factor (r : Nat) : ℝ := max 0.3 (Real.exp (-0.3 * (5 - (r : ℝ))))

/-- Interval `final_interval = max(1, int(adjusted_by_r * (1 + lateness_factor)))` where
`adjusted_by_r = base_days * r_factor` and
`lateness_factor = days_late / base_days if base_days > 0 else 0`. -/
noncomputable def finalInterval (base_days : Nat) (r : Nat) (days_late : Nat) : Int :=
  let adjusted_by_r : ℝ := (base_days : ℝ) * r_factor r
  let lateness_factor : ℝ := if 0 < base_days then (days_late : ℝ) / (base_days : ℝ) else 0
  max 1 ⌊adjusted_by_r * (1 + lateness_factor)⌋

/-! Item state machine. -/

/-- Processing one answer for one learning item inside `test_items`
(lines 409–440): calls `estimate_r`, stamps `last_processed_date`, then on a
correct answer increments the streak, appends `'O'`, and promotes to review at
`REQUIRED_STREAK`; on an incorrect answer appends `'X'`, decrements the streak
(clamped at 0, i.e. `max(0, streak - 1)`), and resets stage/status/due date. -/
def learningStep (today : String) (item : Item) (is_correct : Bool) (elapsed : ℚ) : Item :=
  let item1 := (estimate_r item is_correct elapsed).1
  let item2 := { item1 with last_processed_date := today }
  if is_correct then
    let item3 := { item2 with correct_streak := item2.correct_streak + 1,
                              history := item2.history ++ ['O'] }
    if REQUIRED_STREAK ≤ item3.correct_streak then
      { item3 with status := "review", stage := 1,
                   next_review := isoAddDays today (FORGETTING_SCHEDULE.getD 0 0),
                   correct_streak := 0 }
    else item3
  else
    { item2 with history := item2.history ++ ['X'],
                 correct_streak := item2.correct_streak - 1,
                 stage := 0,
                 status := "learning",
                 next_review := today }

/-- Processing one answer for one review item inside `update_review_items`
(lines 493–557).  On a correct answer below the maximum stage the stage is
incremented and the next review date computed by the interval calculator from
the rating and the lateness against the previously scheduled date; at the
maximum stage `next_review` is set to the `"done"` sentinel (the status field
is left untouched).  On an incorrect answer the item is demoted to learning
with streak and stage 0 (the review-log entry reads the already-zeroed stage
and the unclamped lateness, per the source). -/
noncomputable def reviewStep (today : String) (item : Item) (is_correct : Bool)
    (elapsed : ℚ) : Item :=
  let er := estimate_r item is_correct elapsed
  let item1 := er.1
  let r := er.2
  if is_correct then
    let item2 := { item1 with history := item1.history ++ ['O'] }
    if item2.stage < FORGETTING_SCHEDULE.length then
      let stage1 := item2.stage + 1
      let base_days := FORGETTING_SCHEDULE.getD (stage1 - 1) 0
      let days_late := (max 0 (isoDiffDays today item2.next_review)).toNat
      let final := finalInterval base_days r days_late
      { item2 with stage := stage1,
                   review_log := item2.review_log ++
                     [⟨today, (base_days : Int), (base_days : Int) + (days_late : Int),
                       is_correct, r, elapsed⟩],
                   next_review := isoAddDays today final }
    else
      { item2 with next_review := "done" }
  else
    let item2 := { item1 with history := item1.history ++ ['X'],
                              status := "learning", correct_streak := 0, stage := 0 }
    { item2 with review_log := item2.review_log ++
                   [⟨today, (item2.stage : Int), isoDiffDays today item2.next_review,
                     false, r, elapsed⟩],
                 next_review := today }

/-- The item dict built by `add_new_items` for a freshly inserted Q&A pair:
learning status, stage 0, streak 0, due today, empty auxiliary sequences. -/
def freshItem (q a today : String) : Item :=
  { question := q, answer := a, correct_streak := 0, stage := 0,
    next_review := today, status := "learning", history := [],
    postponed := false, created_at := today, response_times := [],
    error_ratios := [], last_processed_date := today, review_log := [] }

/-! Daily scheduler (`get_learning_items` and `main`). -/

/-- List `today_new` in `get_learning_items`: learning items created today with
streak below `REQUIRED_STREAK`, in dict (insertion) order. -/
def dueLearningToday (today : String) (data : List (String × Item)) : List (String × Item) :=
  data.filter fun kv => kv.2.status == "learning" && kv.2.created_at == today
    && kv.2.correct_streak < REQUIRED_STREAK

/-- List `others` in `get_learning_items`: learning items not created today with
streak below `REQUIRED_STREAK`, stably sorted by `created_at` ascending. -/
def dueLearningOlder (today : String) (data : List (String × Item)) : List (String × Item) :=
  (data.filter fun kv => kv.2.status == "learning" && kv.2.created_at != today
    && kv.2.correct_streak < REQUIRED_STREAK).mergeSort
      fun x y => pyStrLe x.2.created_at y.2.created_at

/-- Function `get_learning_items(data)`: keys of today's new learning items followed by
older learning items sorted by creation date.  (Despite its docstring, the
function applies no postponed filter and no daily limit.) -/
def get_learning_items (today : String) (data : List (String × Item)) : List String :=
  (dueLearningToday today data ++ dueLearningOlder today data).map Prod.fst

/-- List `all_due_review_keys` in `main` (line 655): review items whose
`next_review` string compares `<=` today, paired with their data. -/
def dueReviewPairs (today : String) (data : List (String × Item)) : List (String × Item) :=
  data.filter fun kv => kv.2.status == "review" && pyStrLe kv.2.next_review today

/-- List `combined_due_items` in `main` (lines 657–669): today's new learning items,
then older learning items by creation date ascending, then due review items.
(`main` rebuilds the two learning segments by filtering the key list returned
by `get_learning_items` on `created_at == DATE_TODAY`, which recovers exactly
the two segments above.) -/
def combined_due_items (today : String) (data : List (String × Item)) :
    List (String × Item) :=
  dueLearningToday today data ++ dueLearningOlder today data ++ dueReviewPairs today data

/-- The cap pass of `main` (lines 672–676), from a running index: position
`< DAILY_TOTAL_LIMIT` gets `postponed = False`, every later position
`postponed = True`. -/
def applyCapFrom (i : Nat) : List (String × Item) → List (String × Item)
  | [] => []
  | kv :: rest =>
      (kv.1, { kv.2 with postponed := if i < DAILY_TOTAL_LIMIT then false else true }) ::
        applyCapFrom (i + 1) rest

/-- The cap pass of `main` over the enumerated combined due list. -/
def applyCap (l : List (String × Item)) : List (String × Item) := applyCapFrom 0 l

/-- List `learning_keys_for_session` in `main` (lines 680, 706): learning status and
not postponed (no streak test here). -/
def learning_keys_for_session (data : List (String × Item)) : List String :=
  (data.filter fun kv => kv.2.status == "learning" && !kv.2.postponed).map Prod.fst

/-- List `review_keys_for_session` in `main` (lines 681, 707): review status, due by
string comparison, and not postponed. -/
def review_keys_for_session (today : String) (data : List (String × Item)) : List String :=
  (data.filter fun kv => kv.2.status == "review" && pyStrLe kv.2.next_review today
    && !kv.2.postponed).map Prod.fst

/-! Session semantics for a single learning item.

In `main`'s round loop an item is presented while its status is `learning`
and skipped once promoted, so feeding an answer sequence to one item applies
`learningStep` guarded by the status check.  Streak, status and stage do not
depend on the elapsed time, which is taken as 0 per answer. -/

/-- State of one item after a sequence of learning answers; each answer is
processed by `learningStep` while the item is still in learning status and
ignored afterwards (a promoted item is no longer presented for learning). -/
def learnAnswers (today : String) (item : Item) : List Bool → Item
  | [] => item
  | a :: rest =>
      learnAnswers today
        (if item.status = "learning" then learningStep today item a 0 else item) rest

/-- Number of promotion events (a step taking the item from learning status to
review status) along a sequence of learning answers. -/
def promoCount (today : String) (item : Item) : List Bool → Nat
  | [] => 0
  | a :: rest =>
      if item.status = "learning" then
        let item1 := learningStep today item a 0
        (if item1.status = "review" then 1 else 0) + promoCount today item1 rest
      else promoCount today item rest

/-! Concrete items used by counterexamples and witnesses. -/

/-- A review item at the maximum stage `N = FORGETTING_SCHEDULE.length`. -/
def reviewItemMax : Item :=
  { freshItem "q" "a" "2025-01-01" with
      status := "review", stage := FORGETTING_SCHEDULE.length,
      next_review := "2025-01-10" }

/-- A review item at stage 1. -/
def reviewItemOne : Item :=
  { freshItem "q" "a" "2025-01-01" with
      status := "review", stage := 1, next_review := "2025-01-02" }

/-- A learning item carrying a raised postponed flag. -/
def postponedLearner : Item :=
  { freshItem "q" "a" "2025-01-01" with postponed := true }

/-! Helper lemmas shared across the verification. -/

/-- Shape of the item returned by `estimate_r`: the response time is appended
to `response_times` and every other field is untouched, in both branches. -/
theorem estimate_r_item_eq (item : Item) (c : Bool) (t : ℚ) :
    (estimate_r item c t).1 =
      { item with response_times := item.response_times ++ [t] } := by
  unfold estimate_r
  dsimp only
  split_ifs <;> rfl

/-- Explicit form of `learningStep` on an incorrect answer. -/
theorem learningStep_false (today : String) (item : Item) (t : ℚ) :
    learningStep today item false t =
      { item with response_times := item.response_times ++ [t],
                  last_processed_date := today,
                  history := item.history ++ ['X'],
                  correct_streak := item.correct_streak - 1,
                  stage := 0, status := "learning", next_review := today } := rfl

/-- Explicit form of `learningStep` on a correct answer: promotion exactly when
the incremented streak reaches `REQUIRED_STREAK`. -/
theorem learningStep_true (today : String) (item : Item) (t : ℚ) :
    learningStep today item true t =
      if REQUIRED_STREAK ≤ item.correct_streak + 1 then
        { item with response_times := item.response_times ++ [t],
                    last_processed_date := today,
                    history := item.history ++ ['O'],
                    correct_streak := 0, status := "review", stage := 1,
                    next_review := isoAddDays today (FORGETTING_SCHEDULE.getD 0 0) }
      else
        { item with response_times := item.response_times ++ [t],
                    last_processed_date := today,
                    history := item.history ++ ['O'],
                    correct_streak := item.correct_streak + 1 } := by
  unfold learningStep
  rw [estimate_r_item_eq]
  dsimp only
  split_ifs <;> first | rfl | simp_all

/-- Explicit form of `reviewStep` on an incorrect answer (demotion). -/
theorem reviewStep_false (today : String) (item : Item) (t : ℚ) :
    reviewStep today item false t =
      { item with response_times := item.response_times ++ [t],
                  history := item.history ++ ['X'],
                  status := "learning", correct_streak := 0, stage := 0,
                  review_log := item.review_log ++
                    [⟨today, 0, isoDiffDays today item.next_review, false, 0, t⟩],
                  next_review := today } := rfl

/-- Explicit form of `reviewStep` on a correct answer below the maximum stage. -/
theorem reviewStep_true_lt (today : String) (item : Item) (t : ℚ)
    (h : item.stage < FORGETTING_SCHEDULE.length) :
    reviewStep today item true t =
      { item with response_times := item.response_times ++ [t],
                  history := item.history ++ ['O'],
                  stage := item.stage + 1,
                  review_log := item.review_log ++
                    [⟨today, (FORGETTING_SCHEDULE.getD item.stage 0 : Int),
                      (FORGETTING_SCHEDULE.getD item.stage 0 : Int) +
                        ((max 0 (isoDiffDays today item.next_review)).toNat : Int),
                      true, (estimate_r item true t).2, t⟩],
                  next_review := isoAddDays today
                    (finalInterval (FORGETTING_SCHEDULE.getD item.stage 0)
                      (estimate_r item true t).2
                      ((max 0 (isoDiffDays today item.next_review)).toNat)) } := by
  unfold reviewStep
  dsimp only
  rw [estimate_r_item_eq]
  dsimp only
  split_ifs <;> first | rfl | simp_all

/-- Explicit form of `reviewStep` on a correct answer at (or beyond) the
maximum stage: only `next_review` is set, to the `"done"` sentinel. -/
theorem reviewStep_true_max (today : String) (item : Item) (t : ℚ)
    (h : ¬ item.stage < FORGETTING_SCHEDULE.length) :
    reviewStep today item true t =
      { item with response_times := item.response_times ++ [t],
                  history := item.history ++ ['O'],
                  next_review := "done" } := by
  unfold reviewStep
  dsimp only
  rw [estimate_r_item_eq]
  dsimp only
  split_ifs <;> first | rfl | simp_all

/-! Claim C10: effect of `estimate_r` on the item. -/

/-- C10: every call of `estimate_r`, on a correct or an incorrect answer,
appends exactly the elapsed response time to the item's `response_times`
sequence and changes no other field of the item — the rating computation
mutates the item only in this one place. -/
theorem estimate_r_appends_time_only (item : Item) (c : Bool) (t : ℚ) :
    (estimate_r item c t).1 =
      { item with response_times := item.response_times ++ [t] } :=
  estimate_r_item_eq item c t

/-! Claim C7: the rating table. -/

/-- Rating rule as worded in spec §4.2 (spec-side definition, to be compared
with `estimate_r`): 0 when the new answer is incorrect, else 2/3/4/5 as the
trailing run of correct symbols of the existing history is 0/1/2/at least 3. -/
def specRating (priorHistory : List Char) (is_correct : Bool) : Nat :=
  if is_correct = false then 0
  else
    match oStreak priorHistory with
    | 0 => 2
    | 1 => 3
    | 2 => 4
    | _ + 3 => 5

/-- C7: the rating returned by `estimate_r` is 0 for an incorrect answer and
otherwise 2, 3, 4 or 5 according as the trailing run of `'O'` in the history
existing before this answer is appended has length 0, 1, 2 or at least 3. -/
theorem estimate_r_matches_spec_rating (item : Item) (c : Bool) (t : ℚ) :
    (estimate_r item c t).2 = specRating item.history c := by
  cases c
  · rfl
  · unfold estimate_r specRating
    dsimp only
    rcases h : oStreak item.history with _ | _ | _ | n <;> simp [h]

/-! Claim C1: correct answer at the maximum stage. -/

/-- C1 counterexample: for a review item at the maximum stage 9 answering
correctly, the code sets `next_review` to the `"done"` sentinel but leaves the
status field `"review"` — it does not move the item to a `"done"` status. -/
theorem review_max_stage_status_cex :
    (reviewStep "2025-01-10" reviewItemMax true 1).status = "review" ∧
    (reviewStep "2025-01-10" reviewItemMax true 1).status ≠ "done" ∧
    (reviewStep "2025-01-10" reviewItemMax true 1).next_review = "done" :=
  ⟨rfl, by decide, rfl⟩

/-- C1 amended: for a review item at stage `N = FORGETTING_SCHEDULE.length`,
processing a correct answer sets `next_review` to the `"done"` sentinel and
leaves the status `"review"` and the stage unchanged (terminality is enforced
only through the due-date comparison, not through a status change). -/
theorem review_correct_at_max_stage (item : Item) (today : String) (t : ℚ)
    (hst : item.status = "review") (hstage : item.stage = FORGETTING_SCHEDULE.length) :
    (reviewStep today item true t).next_review = "done" ∧
    (reviewStep today item true t).status = "review" ∧
    (reviewStep today item true t).stage = item.stage := by
  rw [reviewStep_true_max today item t (by omega)]
  exact ⟨rfl, hst, rfl⟩

/-- Witness for C1 at a concrete maximum-stage review item. -/
theorem review_correct_at_max_stage_witness :
    reviewItemMax.status = "review" ∧
    reviewItemMax.stage = FORGETTING_SCHEDULE.length ∧
    (reviewStep "2025-01-10" reviewItemMax true 1).next_review = "done" :=
  ⟨rfl, rfl, (review_correct_at_max_stage reviewItemMax "2025-01-10" 1 rfl rfl).1⟩

/-! Claim C4: the auxiliary sequences updated by a transition. -/

/-- C4 counterexample: a learning transition and a review transition on
concrete items append to `history` (so a new running error ratio would be
defined) yet leave `error_ratios` empty, and the review transition also leaves
`last_processed_date` at its old value instead of today's date. -/
theorem error_ratio_append_cex :
    (learningStep "2025-01-02" (freshItem "q" "a" "2025-01-01") true 1).error_ratios = [] ∧
    (learningStep "2025-01-02" (freshItem "q" "a" "2025-01-01") true 1).history.length = 1 ∧
    (reviewStep "2025-01-10" reviewItemMax true 1).error_ratios = [] ∧
    (reviewStep "2025-01-10" reviewItemMax true 1).history.length = 1 ∧
    (reviewStep "2025-01-10" reviewItemMax true 1).last_processed_date = "2025-01-01" :=
  ⟨rfl, rfl, rfl, rfl, rfl⟩

/-- C4 amended: every answer-processing transition appends the outcome symbol
to `history` and the elapsed time to `response_times`; learning transitions
set `last_processed_date` to today; but no transition ever appends to
`error_ratios` (the field keeps its value), and review transitions leave
`last_processed_date` unchanged. -/
theorem transition_sequence_effects (item : Item) (today : String) (c : Bool) (t : ℚ) :
    (learningStep today item c t).last_processed_date = today ∧
    (learningStep today item c t).error_ratios = item.error_ratios ∧
    (learningStep today item c t).history = item.history ++ [if c then 'O' else 'X'] ∧
    (learningStep today item c t).response_times = item.response_times ++ [t] ∧
    (reviewStep today item c t).error_ratios = item.error_ratios ∧
    (reviewStep today item c t).last_processed_date = item.last_processed_date ∧
    (reviewStep today item c t).history = item.history ++ [if c then 'O' else 'X'] ∧
    (reviewStep today item c t).response_times = item.response_times ++ [t] := by
  cases c
  · rw [learningStep_false, reviewStep_false]
    exact ⟨rfl, rfl, rfl, rfl, rfl, rfl, rfl, rfl⟩
  · by_cases hlt : item.stage < FORGETTING_SCHEDULE.length
    · rw [learningStep_true, reviewStep_true_lt today item t hlt]
      split_ifs <;> first | exact ⟨rfl, rfl, rfl, rfl, rfl, rfl, rfl, rfl⟩ | simp_all
    · rw [learningStep_true, reviewStep_true_max today item t hlt]
      split_ifs <;> first | exact ⟨rfl, rfl, rfl, rfl, rfl, rfl, rfl, rfl⟩ | simp_all

/-! Claim C6: the stage/status invariant. -/

/-- Invariant of the data model: stage 0 while learning, stage in `[1, N]`
while in review, with `N = FORGETTING_SCHEDULE.length`. -/
def stageInvariant (item : Item) : Prop :=
  (item.status = "learning" → item.stage = 0) ∧
  (item.status = "review" → 1 ≤ item.stage ∧ item.stage ≤ FORGETTING_SCHEDULE.length)

instance (item : Item) : Decidable (stageInvariant item) := by
  unfold stageInvariant
  infer_instance

/-- C6: every answer-processing transition — a learning step applied to a
learning item or a review step applied to a review item, correct or not —
preserves the invariant `stage = 0` in learning status and
`1 ≤ stage ≤ N` in review status. -/
theorem stage_invariant_preserved (item : Item) (today : String) (c : Bool) (t : ℚ)
    (hinv : stageInvariant item) :
    (item.status = "learning" → stageInvariant (learningStep today item c t)) ∧
    (item.status = "review" → stageInvariant (reviewStep today item c t)) := by
  obtain ⟨hl, hr⟩ := hinv
  constructor
  · intro hstat
    cases c
    · rw [learningStep_false]
      unfold stageInvariant
      dsimp only
      exact ⟨fun _ => rfl, fun h => by simp at h⟩
    · rw [learningStep_true]
      split_ifs
      · unfold stageInvariant
        dsimp only
        exact ⟨fun h => by simp at h, fun _ => ⟨by omega, by decide⟩⟩
      · unfold stageInvariant
        dsimp only
        refine ⟨fun _ => hl hstat, fun h => ?_⟩
        rw [hstat] at h
        simp at h
  · intro hstat
    cases c
    · rw [reviewStep_false]
      unfold stageInvariant
      dsimp only
      exact ⟨fun _ => rfl, fun h => by simp at h⟩
    · by_cases hlt : item.stage < FORGETTING_SCHEDULE.length
      · rw [reviewStep_true_lt today item t hlt]
        unfold stageInvariant
        dsimp only
        have hb := hr hstat
        refine ⟨fun h => ?_, fun _ => ⟨by omega, by omega⟩⟩
        rw [hstat] at h
        simp at h
      · rw [reviewStep_true_max today item t hlt]
        unfold stageInvariant
        dsimp only
        have hb := hr hstat
        refine ⟨fun h => ?_, fun _ => hb⟩
        rw [hstat] at h
        simp at h

/-- Witness for C6: the invariant holds for a fresh learning item and a
stage-1 review item and is preserved by a concrete learning step and a
concrete review step. -/
theorem stage_invariant_preserved_witness :
    stageInvariant (freshItem "q" "a" "2025-01-01") ∧
    stageInvariant reviewItemOne ∧
    stageInvariant (learningStep "2025-01-01" (freshItem "q" "a" "2025-01-01") true 1) ∧
    stageInvariant (reviewStep "2025-01-02" reviewItemOne true 1) :=
  ⟨by decide, by decide,
    (stage_invariant_preserved (freshItem "q" "a" "2025-01-01") "2025-01-01" true 1
      (by decide)).1 rfl,
    (stage_invariant_preserved reviewItemOne "2025-01-02" true 1 (by decide)).2 rfl⟩

/-! Claim C8: monotonicity of the computed interval in the rating. -/

/-- With `days_late = 0` the lateness factor vanishes. -/
theorem finalInterval_zero_late (b r : Nat) :
    finalInterval b r 0 = max 1 ⌊(b : ℝ) * r_factor r⌋ := by
  unfold finalInterval
  dsimp only
  split_ifs <;> simp

/-- Monotonicity of the rating factor. -/
theorem r_factor_mono {r1 r2 : Nat} (h : r1 ≤ r2) : r_factor r1 ≤ r_factor r2 := by
  unfold r_factor
  refine max_le_max le_rfl (Real.exp_le_exp.mpr ?_)
  have hc : (r1 : ℝ) ≤ (r2 : ℝ) := Nat.cast_le.mpr h
  nlinarith

/-- Monotonicity of `finalInterval` in the rating at zero lateness. -/
theorem finalInterval_mono_r {r1 r2 : Nat} (h : r1 ≤ r2) (b : Nat) :
    finalInterval b r1 0 ≤ finalInterval b r2 0 := by
  rw [finalInterval_zero_late, finalInterval_zero_late]
  exact max_le_max le_rfl
    (Int.floor_le_floor (mul_le_mul_of_nonneg_left (r_factor_mono h) (Nat.cast_nonneg b)))

/-- C8: for every fixed stage (hence fixed `base_days` from the schedule) and
`days_late = 0`, the computed interval is monotone in the rating:
its value at `r = 5` is at least its value at `r = 3`, which is at least its
value at `r = 1`. -/
theorem interval_monotone_in_rating (stage : Nat) :
    finalInterval (FORGETTING_SCHEDULE.getD (stage - 1) 0) 1 0 ≤
      finalInterval (FORGETTING_SCHEDULE.getD (stage - 1) 0) 3 0 ∧
    finalInterval (FORGETTING_SCHEDULE.getD (stage - 1) 0) 3 0 ≤
      finalInterval (FORGETTING_SCHEDULE.getD (stage - 1) 0) 5 0 :=
  ⟨finalInterval_mono_r (by omega) _, finalInterval_mono_r (by omega) _⟩

/-! Claim C9: the `"done"` sentinel excludes an item from every review due set. -/

/-- Comparison core for C9: `"done"` is lexicographically greater than any
string starting with a decimal digit, because `'d'` compares above every
digit character. -/
theorem pyListLe_done_digit (c : Char) (cs : List Char) (hc : c.isDigit = true) :
    pyListLe ('d' :: 'o' :: 'n' :: 'e' :: []) (c :: cs) = false := by
  have hlt : c < 'd' := by
    simp only [Char.isDigit, Bool.and_eq_true, decide_eq_true_eq] at hc
    have h2 : c.toNat ≤ 57 := by
      have := hc.2
      simpa [Char.toNat, UInt32.le_def, BitVec.le_def] using this
    have h3 : c.toNat < 'd'.toNat := by
      have hd : 'd'.toNat = 100 := rfl
      omega
    exact Char.lt_iff_val_lt_val.mpr (by
      rw [UInt32.lt_def, BitVec.lt_def]
      simpa [Char.toNat, UInt32.toNat] using h3)
  simp [pyListLe, if_neg (asymm hlt), if_pos hlt]

/-- C9: an item whose `next_review` holds the `"done"` sentinel is never
selected into any review due set for a today that is an ISO date string
(first character a digit): the string `"done"` fails the `next_review <= today`
comparison, so the item passes neither the raw due-review filter nor the
session filter, even though its status may still be `"review"`. -/
theorem done_sentinel_never_due (item : Item) (c : Char) (cs : List Char)
    (k : String) (data : List (String × Item))
    (hnr : item.next_review = "done") (hc : c.isDigit = true) :
    pyStrLe item.next_review (String.mk (c :: cs)) = false ∧
    (k, item) ∉ dueReviewPairs (String.mk (c :: cs)) data ∧
    (k, item) ∉ data.filter (fun kv => kv.2.status == "review"
      && pyStrLe kv.2.next_review (String.mk (c :: cs)) && !kv.2.postponed) := by
  have hle : pyStrLe item.next_review (String.mk (c :: cs)) = false := by
    rw [hnr]
    show pyListLe ('d' :: 'o' :: 'n' :: 'e' :: []) (c :: cs) = false
    exact pyListLe_done_digit c cs hc
  refine ⟨hle, fun hmem => ?_, fun hmem => ?_⟩
  · rw [dueReviewPairs, List.mem_filter] at hmem
    rw [hle] at hmem
    simp at hmem
  · rw [List.mem_filter] at hmem
    rw [hle] at hmem
    simp at hmem

/-- A review item carrying the `"done"` sentinel, for the C9 witness. -/
def doneItem : Item :=
  { freshItem "q" "a" "2025-01-01" with
      status := "review", stage := 9, next_review := "done" }

/-- Witness for C9 at a concrete done item against a concrete ISO date. -/
theorem done_sentinel_never_due_witness :
    doneItem.next_review = "done" ∧ Char.isDigit '2' = true ∧
    pyStrLe doneItem.next_review (String.mk ('2' :: "025-01-02".toList)) = false :=
  ⟨rfl, rfl,
    (done_sentinel_never_due doneItem '2' "025-01-02".toList "k" [("k", doneItem)]
      rfl rfl).1⟩

/-! Claim C2: exactly one promotion per learning run. -/

/-- A non-learning item records no promotions along any answer sequence. -/
theorem promoCount_not_learning (today : String) (item : Item) (l : List Bool)
    (h : ¬ item.status = "learning") : promoCount today item l = 0 := by
  induction l with
  | nil => rfl
  | cons a rest ih =>
      rw [promoCount, if_neg h]
      exact ih

/-- A non-learning item is unchanged by any learning answer sequence. -/
theorem learnAnswers_not_learning (today : String) (item : Item) (l : List Bool)
    (h : ¬ item.status = "learning") : learnAnswers today item l = item := by
  induction l with
  | nil => rfl
  | cons a rest ih =>
      rw [learnAnswers, if_neg h]
      exact ih

/-- After one learning step the status is `"review"` or `"learning"`. -/
theorem learningStep_status_dichotomy (today : String) (item : Item) (a : Bool) (t : ℚ)
    (h : item.status = "learning") :
    (learningStep today item a t).status = "review" ∨
    (learningStep today item a t).status = "learning" := by
  cases a
  · rw [learningStep_false]
    exact Or.inr rfl
  · rw [learningStep_true]
    split_ifs
    · exact Or.inl rfl
    · exact Or.inr h

/-- The number of promotions along a run from a learning item is 0 or 1
according as the run ends still in learning status or in review status. -/
theorem promoCount_indicator (today : String) (l : List Bool) : ∀ item : Item,
    item.status = "learning" →
    promoCount today item l =
      if (learnAnswers today item l).status = "learning" then 0 else 1 := by
  induction l with
  | nil =>
      intro item h
      rw [promoCount, learnAnswers, if_pos h]
  | cons a rest ih =>
      intro item h
      rw [promoCount, learnAnswers, if_pos h, if_pos h]
      dsimp only
      rcases learningStep_status_dichotomy today item a 0 h with hs | hs
      · have hns : ¬ (learningStep today item a 0).status = "learning" := by
          rw [hs]; decide
        rw [if_pos hs, promoCount_not_learning today _ rest hns,
          learnAnswers_not_learning today _ rest hns, if_neg hns]
      · have hnr : ¬ (learningStep today item a 0).status = "review" := by
          rw [hs]; decide
        rw [if_neg hnr, ih _ hs]
        omega

/-- Splitting a promotion count over an appended answer sequence. -/
theorem promoCount_append (today : String) (l1 l2 : List Bool) : ∀ item : Item,
    promoCount today item (l1 ++ l2) =
      promoCount today item l1 + promoCount today (learnAnswers today item l1) l2 := by
  induction l1 with
  | nil =>
      intro item
      rw [List.nil_append, promoCount, learnAnswers]
      omega
  | cons a rest ih =>
      intro item
      by_cases h : item.status = "learning"
      · rw [List.cons_append, promoCount, promoCount, learnAnswers,
          if_pos h, if_pos h, if_pos h]
        dsimp only
        rw [ih]
        omega
      · rw [List.cons_append, promoCount, promoCount, learnAnswers,
          if_neg h, if_neg h, if_neg h]
        exact ih item

/-- Three consecutive correct answers from any learning state whose streak can
reach `REQUIRED_STREAK` within the run always end in review status. -/
theorem learnAnswers_replicate_true (today : String) : ∀ (k : Nat) (item : Item),
    item.status = "learning" → 1 ≤ k → REQUIRED_STREAK ≤ item.correct_streak + k →
    (learnAnswers today item (List.replicate k true)).status = "review" := by
  intro k
  induction k with
  | zero =>
      intro item h h1 h2
      omega
  | succ k ih =>
      intro item h h1 h2
      rw [List.replicate_succ, learnAnswers, if_pos h]
      by_cases hp : REQUIRED_STREAK ≤ item.correct_streak + 1
      · have hs : (learningStep today item true 0).status = "review" := by
          rw [learningStep_true, if_pos hp]
        rw [learnAnswers_not_learning today _ _ (by rw [hs]; decide)]
        exact hs
      · have hs : (learningStep today item true 0).status = item.status := by
          rw [learningStep_true, if_neg hp]
        have hstk : (learningStep today item true 0).correct_streak =
            item.correct_streak + 1 := by
          rw [learningStep_true, if_neg hp]
        exact ih _ (by rw [hs]; exact h) (by omega) (by rw [hstk]; omega)

/-- C2 counterexample: from a fresh item, the sequence correct, correct,
incorrect leaves `correct_streak = 1` (the incorrect answer decrements rather
than resets the streak), and the subsequent promotion fires on the second
consecutive correct answer, not the third. -/
theorem promotion_streak_cex :
    (learnAnswers "2025-01-01" (freshItem "q" "a" "2025-01-01")
      [true, true, false]).correct_streak = 1 ∧
    (learnAnswers "2025-01-01" (freshItem "q" "a" "2025-01-01")
      [true, true, false, true]).status = "learning" ∧
    (learnAnswers "2025-01-01" (freshItem "q" "a" "2025-01-01")
      [true, true, false, true, true]).status = "review" :=
  ⟨rfl, rfl, rfl⟩

/-- C2 amended: an incorrect answer decrements the learning streak by one
(clamped at zero) instead of resetting it to zero; for a fresh learning item,
any answer sequence ending in `REQUIRED_STREAK` consecutive correct answers
produces exactly one promotion event, at the latest on the
`REQUIRED_STREAK`-th correct answer of that final run (exactly on it when no
incorrect answers intervene), though an interleaved incorrect answer can make
the promotion come earlier within the final run. -/
theorem promotion_exactly_once (q a today : String) (item : Item) (t : ℚ)
    (pre : List Bool) :
    (learningStep today item false t).correct_streak = item.correct_streak - 1 ∧
    promoCount today (freshItem q a today)
      (pre ++ List.replicate REQUIRED_STREAK true) = 1 ∧
    (learnAnswers today (freshItem q a today)
      (List.replicate (REQUIRED_STREAK - 1) true)).status = "learning" ∧
    (learnAnswers today (freshItem q a today)
      (List.replicate REQUIRED_STREAK true)).status = "review" := by
  refine ⟨by rw [learningStep_false], ?_, rfl, rfl⟩
  rw [promoCount_append]
  have hfs : (freshItem q a today).status = "learning" := rfl
  by_cases hA : (learnAnswers today (freshItem q a today) pre).status = "learning"
  · rw [promoCount_indicator today pre _ hfs, if_pos hA,
      promoCount_indicator today _ _ hA,
      if_neg (by rw [learnAnswers_replicate_true today REQUIRED_STREAK _ hA
        (by decide) (by omega)]; decide)]
  · rw [promoCount_indicator today pre _ hfs, if_neg hA,
      promoCount_not_learning today _ _ hA]

/-! Claim C3: the learning due selection and the postponed flag. -/

/-- C3 counterexample: a learning item with a raised postponed flag and a
streak below the threshold is nevertheless returned by `get_learning_items`
(the function applies no postponed filter). -/
theorem postponed_item_selected_cex :
    postponedLearner.postponed = true ∧
    get_learning_items "2025-01-01" [("k", postponedLearner)] = ["k"] :=
  ⟨rfl, by
    simp [get_learning_items, dueLearningToday, dueLearningOlder,
      postponedLearner, freshItem, REQUIRED_STREAK]⟩

/-- C3 amended: `get_learning_items` selects exactly the items with
`status = "learning"` and `correct_streak < REQUIRED_STREAK`, regardless of
the postponed flag; the postponed exclusion is applied downstream, by the
session filter of `main`, which selects exactly the items with
`status = "learning"` and an unraised postponed flag (with no streak test). -/
theorem learning_due_membership (today k : String) (data : List (String × Item)) :
    (k ∈ get_learning_items today data ↔
      ∃ v, (k, v) ∈ data ∧ v.status = "learning" ∧
        v.correct_streak < REQUIRED_STREAK) ∧
    (k ∈ learning_keys_for_session data ↔
      ∃ v, (k, v) ∈ data ∧ v.status = "learning" ∧ v.postponed = false) := by
  constructor
  · rw [get_learning_items, List.mem_map]
    constructor
    · rintro ⟨⟨k', v⟩, hmem, rfl⟩
      rw [List.mem_append] at hmem
      rcases hmem with hm | hm
      · rw [dueLearningToday, List.mem_filter] at hm
        obtain ⟨h1, h2⟩ := hm
        simp only [Bool.and_eq_true, beq_iff_eq, decide_eq_true_eq] at h2
        exact ⟨v, h1, h2.1.1, h2.2⟩
      · rw [dueLearningOlder, (List.mergeSort_perm _ _).mem_iff,
          List.mem_filter] at hm
        obtain ⟨h1, h2⟩ := hm
        simp only [Bool.and_eq_true, beq_iff_eq, bne_iff_ne,
          decide_eq_true_eq] at h2
        exact ⟨v, h1, h2.1.1, h2.2⟩
    · rintro ⟨v, hmem, hst, hstreak⟩
      refine ⟨(k, v), ?_, rfl⟩
      rw [List.mem_append]
      by_cases hc : v.created_at = today
      · exact Or.inl (by
          rw [dueLearningToday, List.mem_filter]
          exact ⟨hmem, by simp [hst, hc, hstreak]⟩)
      · exact Or.inr (by
          rw [dueLearningOlder, (List.mergeSort_perm _ _).mem_iff,
            List.mem_filter]
          exact ⟨hmem, by simp [hst, hc, hstreak]⟩)
  · rw [learning_keys_for_session, List.mem_map]
    constructor
    · rintro ⟨⟨k', v⟩, hmem, rfl⟩
      rw [List.mem_filter] at hmem
      obtain ⟨h1, h2⟩ := hmem
      simp only [Bool.and_eq_true, beq_iff_eq, Bool.not_eq_true'] at h2
      exact ⟨v, h1, h2.1, h2.2⟩
    · rintro ⟨v, hmem, hst, hpost⟩
      refine ⟨(k, v), ?_, rfl⟩
      rw [List.mem_filter]
      exact ⟨hmem, by simp [hst, hpost]⟩

/-! Claim C5: the daily workload cap pass. -/

/-- The cap pass preserves the length of the list. -/
theorem applyCapFrom_length (l : List (String × Item)) : ∀ i,
    (applyCapFrom i l).length = l.length := by
  induction l with
  | nil => intro i; rfl
  | cons kv rest ih =>
      intro i
      rw [applyCapFrom]
      simp [ih]

/-- Elementwise description of the cap pass: position `j` (starting from
running index `i`) keeps its key and item except that `postponed` is set by
the index test against `DAILY_TOTAL_LIMIT`. -/
theorem applyCapFrom_getElem (l : List (String × Item)) : ∀ (i j : Nat),
    (applyCapFrom i l)[j]? = l[j]?.map (fun kv : String × Item =>
      (kv.1, { kv.2 with
        postponed := if i + j < DAILY_TOTAL_LIMIT then false else true })) := by
  induction l with
  | nil => intro i j; simp [applyCapFrom]
  | cons kv rest ih =>
      intro i j
      cases j with
      | zero =>
          rw [applyCapFrom]
          simp
      | succ j =>
          rw [applyCapFrom, List.getElem?_cons_succ, List.getElem?_cons_succ,
            ih (i + 1) j]
          have harith : i + 1 + j = i + (j + 1) := by omega
          rw [harith]

/-- Number of items flagged postponed by the cap pass started at index `i`. -/
theorem applyCapFrom_countP (l : List (String × Item)) : ∀ i,
    (applyCapFrom i l).countP (fun kv => kv.2.postponed) =
      l.length - min (DAILY_TOTAL_LIMIT - i) l.length := by
  induction l with
  | nil => intro i; simp [applyCapFrom]
  | cons kv rest ih =>
      intro i
      rw [applyCapFrom, List.countP_cons, ih (i + 1)]
      by_cases h : i < DAILY_TOTAL_LIMIT <;> simp [h] <;> omega

/-- C5: when the combined due list (today's new learning items, then older
learning items by creation date, then due review items) has more than
`DAILY_TOTAL_LIMIT` entries, the cap pass flags exactly the excess items after
the first `DAILY_TOTAL_LIMIT` positions as postponed, flags the first
`DAILY_TOTAL_LIMIT` positions as not postponed, and changes no item's status,
stage or next review date. -/
theorem daily_cap_enforcement (today : String) (data : List (String × Item))
    (h : DAILY_TOTAL_LIMIT < (combined_due_items today data).length) :
    (applyCap (combined_due_items today data)).length
        = (combined_due_items today data).length ∧
    (applyCap (combined_due_items today data)).countP (fun kv => kv.2.postponed)
        = (combined_due_items today data).length - DAILY_TOTAL_LIMIT ∧
    (∀ (j : Nat) (kv0 : String × Item),
      (combined_due_items today data)[j]? = some kv0 →
      (applyCap (combined_due_items today data))[j]? =
        some (kv0.1, { kv0.2 with
          postponed := if j < DAILY_TOTAL_LIMIT then false else true })) ∧
    (∀ (j : Nat) (kv kv0 : String × Item),
      (applyCap (combined_due_items today data))[j]? = some kv →
      (combined_due_items today data)[j]? = some kv0 →
      kv.2.status = kv0.2.status ∧ kv.2.stage = kv0.2.stage ∧
        kv.2.next_review = kv0.2.next_review ∧
        (kv.2.postponed = true ↔ DAILY_TOTAL_LIMIT ≤ j)) := by
  refine ⟨applyCapFrom_length _ 0, ?_, ?_, ?_⟩
  · rw [applyCap, applyCapFrom_countP]
    omega
  · intro j kv0 hj
    rw [applyCap, applyCapFrom_getElem, hj]
    simp
  · intro j kv kv0 hcap hl
    rw [applyCap, applyCapFrom_getElem, hl] at hcap
    simp only [Option.map_some', Option.some.injEq] at hcap
    rw [← hcap]
    refine ⟨rfl, rfl, rfl, ?_⟩
    split_ifs with hj <;> simp <;> omega

/-- Thirty-one fresh learning items created today (exceeding the cap of 30). -/
def data31 : List (String × Item) :=
  List.replicate 31 ("k", freshItem "q" "a" "2025-01-01")

/-- On `data31` the combined due list is the whole list. -/
theorem combined_due_items_data31 :
    combined_due_items "2025-01-01" data31 = data31 := by
  rw [combined_due_items, dueLearningToday, dueLearningOlder, dueReviewPairs,
    data31, List.filter_replicate, List.filter_replicate, List.filter_replicate]
  norm_num [freshItem, REQUIRED_STREAK]
  all_goals decide

/-- Witness for C5: thirty-one due items against the cap of thirty. -/
theorem daily_cap_enforcement_witness :
    DAILY_TOTAL_LIMIT < (combined_due_items "2025-01-01" data31).length ∧
    (applyCap (combined_due_items "2025-01-01" data31)).countP
        (fun kv => kv.2.postponed)
      = (combined_due_items "2025-01-01" data31).length - DAILY_TOTAL_LIMIT := by
  have hlen : DAILY_TOTAL_LIMIT < (combined_due_items "2025-01-01" data31).length := by
    rw [combined_due_items_data31, data31]
    decide
  exact ⟨hlen, (daily_cap_enforcement "2025-01-01" data31 hlen).2.1⟩

end ForgettingCurve
